import Mathlib

/-!
Verification of the `geoplot.py` trajectory-to-geojson encoder.

The source is `GeoPlot.render` in `src/geoplot.py`, plus the path helper
`read_var`.  The embedding below mirrors the source line by line:

* a simulation `State` is a nested container (`SVal`): a scalar leaf, a
  list, or a string-keyed mapping; scalar values are rationals;
* `read_var state var` splits `var` on `/` (modelling `re.split("/", var)`
  for the plain one-character separator) and walks the container;
* `GeoPlot.render` iterates `for i in range(0, len(state_trajectory) - 1)`,
  reading `state_trajectory[i][-1]`, overwriting `coords` and appending the
  flattened feature values each iteration; it then builds one timestamp per
  `num_episodes * num_steps_per_episode` unit spaced `step_time` seconds
  from a captured start time, zips timestamps against the per-episode value
  lists to build one feature collection per coordinate entry, writes the
  geojson file, and only then reads `timestamps[0]` / `timestamps[-1]` and
  writes the substituted HTML file.

Wall-clock time (`pd.Timestamp.utcnow()`) is passed in as an integer
`start_time` in seconds; `isoformat` on such timestamps is an injective,
strictly monotone rendering, so timestamps are kept as integers.  Python
runtime failures (an out-of-range list index, a missing dictionary key) are
made explicit as `RenderError` values.  Coordinate entries are modelled as
two-element pairs, matching the `[latitude, longitude]` data the plot
consumes (`coord[1]`, `coord[0]` are the only reads).  File writes are
recorded as an ordered list of `Write` events in the order the source
performs them, so that which files exist on failure is provable.
-/

namespace Geoplot

/-- A nested simulation-state container: scalar leaves (rationals), ordered
lists, and string-keyed mappings, as produced by the simulation runner. -/
inductive SVal where
  | leaf : Rat → SVal
  | arr : List SVal → SVal
  | map : List (String × SVal) → SVal

/-- Failure conditions of `render`, naming the Python runtime errors the
source can raise: a missing dictionary key during path resolution
(`KeyError` in `get_by_path`), an out-of-range list index (`IndexError`,
from `state_trajectory[i][-1]`, `value_list[i]` or `timestamps[0]` on an
empty timeline), and data whose shape the numpy conversion step cannot
interpret as coordinates / flat values. -/
inductive RenderError where
  | pathNotFound
  | indexError
  | emptyTimeline
  | badShape
deriving DecidableEq, Repr

/-- Splitting a character list on the separator `/`, the behaviour of
`re.split("/", var)` for the plain one-character pattern: `n` separators
yield `n + 1` (possibly empty) segments. -/
def splitSlashAux : List Char → List (List Char)
  | [] => [[]]
  | c :: cs =>
    if c = '/' then [] :: splitSlashAux cs
    else
      match splitSlashAux cs with
      | s :: rest => (c :: s) :: rest
      | [] => [[c]]

/-- `re.split("/", s)` as a function on strings. -/
def splitSlash (s : String) : List String :=
  (splitSlashAux s.data).map (fun cs => String.mk cs)

/-- First-match lookup of a key in a mapping node (Python `dict` lookup;
keys are unique in a dict, so first match is the match). -/
def lookupKey : List (String × SVal) → String → Option SVal
  | [], _ => none
  | (k, v) :: kvs, key => if k = key then some v else lookupKey kvs key

/-- Modelled from the spec: `get_by_path` is imported from
`agent_torch.core.helpers`, which is not among the sources of this
repository;
per the contract it walks the container performing one key lookup per
segment, left to right, returning the value found at the final segment and
failing with a `PathNotFound` condition if any segment is missing or an
intermediate value is not a lookup-capable container. -/
def get_by_path : SVal → List String → Except RenderError SVal
  | v, [] => .ok v
  | .map kvs, seg :: rest =>
    match lookupKey kvs seg with
    | some v => get_by_path v rest
    | none => .error .pathNotFound
  | .leaf _, _ :: _ => .error .pathNotFound
  | .arr _, _ :: _ => .error .pathNotFound

/-- `read_var(state, var)`: split the path on `/` and walk the state. -/
def read_var (state : SVal) (var : String) : Except RenderError SVal :=
  get_by_path state (splitSlash var)

/-- One `[latitude, longitude]` entry of the coordinates read
(`np.array(...).tolist()` keeps the nesting; entries are two-element). -/
def toPair : SVal → Option (Rat × Rat)
  | .arr [.leaf a, .leaf b] => some (a, b)
  | _ => none

/-- Sequential `Option`-valued map over a list (left to right). -/
def mapO (f : α → Option β) : List α → Option (List β)
  | [] => some []
  | x :: xs =>
    match f x with
    | none => none
    | some y =>
      match mapO f xs with
      | none => none
      | some ys => some (y :: ys)

/-- The coordinates read: a list of `[lat, lon]` pairs, i.e.
`np.array(read_var(final_state, entity_position)).tolist()`. -/
def toCoords : SVal → Option (List (Rat × Rat))
  | .arr xs => mapO toPair xs
  | _ => none

mutual
/-- `np.array(...).flatten().tolist()`: the scalar leaves of a nested
array value in depth-first (row-major) order. -/
def flattenVals : SVal → Option (List Rat)
  | .leaf x => some [x]
  | .arr xs => flattenValsList xs
  | .map _ => none

/-- Flattening of a list of nested array values, in order. -/
def flattenValsList : List SVal → Option (List Rat)
  | [] => some []
  | v :: vs =>
    match flattenVals v with
    | none => none
    | some a =>
      match flattenValsList vs with
      | none => none
      | some b => some (a ++ b)
end

/-- The configuration fields `render` reads from
`config["simulation_metadata"]`. -/
structure Config where
  name : String
  num_episodes : Nat
  num_steps_per_episode : Nat

/-- The `GeoPlot` object: the configuration plus the five option fields
unpacked by `__init__`. -/
structure GeoPlot where
  config : Config
  cesium_token : String
  step_time : Int
  entity_position : String
  entity_property : String
  visualization_type : String

/-- The reads of one simulation episode, i.e. one iteration of the extraction
loop body on `final_state = state_trajectory[i][-1]`: the coordinate list
to be assigned to `coords` and the flattened feature values appended to
`values`.  An empty episode makes `[-1]` an out-of-range index. -/
def readEpisode (g : GeoPlot) (episode : List SVal) :
    Except RenderError (List (Rat × Rat) × List Rat) :=
  match episode.getLast? with
  | none => .error .indexError
  | some final_state =>
    match read_var final_state g.entity_position with
    | .error e => .error e
    | .ok cv =>
      match toCoords cv with
      | none => .error .badShape
      | some cs =>
        match read_var final_state g.entity_property with
        | .error e => .error e
        | .ok vv =>
          match flattenVals vv with
          | none => .error .badShape
          | some vs => .ok (cs, vs)

/-- The extraction loop `for i in range(0, len(state_trajectory) - 1)`,
threading the current `coords` (overwritten each iteration) and the
accumulated `values` (appended each iteration).  It is run on
`state_trajectory.take (state_trajectory.length - 1)`, the episodes the
range actually visits. -/
def extractLoop (g : GeoPlot) :
    List (List SVal) → List (Rat × Rat) → List (List Rat) →
    Except RenderError (List (Rat × Rat) × List (List Rat))
  | [], coords, values => .ok (coords, values)
  | ep :: rest, coords, values =>
    match readEpisode g ep with
    | .error e => .error e
    | .ok (c, v) => extractLoop g rest c (values ++ [v])

/-- The synthetic timeline: one timestamp per
`num_episodes * num_steps_per_episode` unit, the entry at index `i` offset
`i * step_time` seconds from the captured start time. -/
def mkTimestamps (g : GeoPlot) (start_time : Int) : List Int :=
  (List.range (g.config.num_episodes * g.config.num_steps_per_episode)).map
    (fun (i : Nat) => start_time + (i : Int) * g.step_time)

/-- One emitted geojson feature:
`{geometry: {coordinates: [lon, lat]}, properties: {value, time}}`. -/
structure Feature where
  coordinates : List Rat
  value : Rat
  time : Int
deriving DecidableEq, Repr

/-- Sequential `Except`-valued map over a list (left to right), the shape
of the accumulation loops in the source. -/
def mapE (f : α → Except ε β) : List α → Except ε (List β)
  | [] => .ok []
  | x :: xs =>
    match f x with
    | .error e => .error e
    | .ok y =>
      match mapE f xs with
      | .error e => .error e
      | .ok ys => .ok (y :: ys)

/-- One feature of entity `i`: coordinates `[coord[1], coord[0]]`, value
`value_list[i]` (an out-of-range entity index is an `IndexError`), time the
zipped timestamp. -/
def buildFeature (coord : Rat × Rat) (i : Nat) (time : Int)
    (value_list : List Rat) : Except RenderError Feature :=
  match value_list.get? i with
  | none => .error .indexError
  | some v => .ok ⟨[coord.2, coord.1], v, time⟩

/-- The feature collection of entity `i`: one feature per element of
`zip(timestamps, values)`, in order. -/
def buildCollection (coord : Rat × Rat) (i : Nat)
    (pairs : List (Int × List Rat)) : Except RenderError (List Feature) :=
  mapE (fun p => buildFeature coord i p.1 p.2) pairs

/-- The geojson array: `for i, coord in enumerate(coords)`, one feature
collection per coordinate entry. -/
def buildGeojsons (coords : List (Rat × Rat))
    (pairs : List (Int × List Rat)) :
    Except RenderError (List (List Feature)) :=
  mapE (fun ic => buildCollection ic.2 ic.1 pairs) coords.enum

/-- The HTML output, modelled as the record of the five values substituted
into the fixed external template (`accessToken`, `startTime`, `stopTime`,
`data`, `visualType`); the template itself is an opaque frozen artifact. -/
structure HtmlDoc where
  accessToken : String
  startTime : Int
  stopTime : Int
  data : List (List Feature)
  visualType : String
deriving DecidableEq, Repr

/-- A file write performed by `render`: the geojson dump or the substituted
HTML document, each with its target path. -/
inductive Write where
  | geojsonFile : String → List (List Feature) → Write
  | htmlFile : String → HtmlDoc → Write
deriving DecidableEq, Repr

/-- `GeoPlot.render(state_trajectory)`: the extraction loop over episodes
`0 .. len - 2`, the timeline, the geojson assembly, then the file writes in
source order — the geojson dump happens before `timestamps[0]` and
`timestamps[-1]` are read for the HTML substitution, so an empty timeline
fails only after the geojson file is written.  Returns the ordered list of
writes performed and the error, if any. -/
def render (g : GeoPlot) (start_time : Int)
    (state_trajectory : List (List SVal)) :
    List Write × Option RenderError :=
  let geodata_path := g.config.name ++ ".geojson"
  let geoplot_path := g.config.name ++ ".html"
  match extractLoop g (state_trajectory.take (state_trajectory.length - 1))
      [] [] with
  | .error e => ([], some e)
  | .ok (coords, values) =>
    let timestamps := mkTimestamps g start_time
    match buildGeojsons coords (timestamps.zip values) with
    | .error e => ([], some e)
    | .ok geojsons =>
      match timestamps.head?, timestamps.getLast? with
      | some t0, some t1 =>
        ([Write.geojsonFile geodata_path geojsons,
          Write.htmlFile geoplot_path
            ⟨g.cesium_token, t0, t1, geojsons, g.visualization_type⟩],
          none)
      | _, _ => ([Write.geojsonFile geodata_path geojsons],
          some .emptyTimeline)

/-! Helper lemmas about the sequential maps and the loop. -/

/-- Inversion of `mapE` on a cons cell: success means the head and the tail
each succeeded. -/
theorem mapE_cons_ok {α β ε : Type} {f : α → Except ε β} {x : α}
    {xs : List α} {ys : List β} (h : mapE f (x :: xs) = .ok ys) :
    ∃ y tl, f x = .ok y ∧ mapE f xs = .ok tl ∧ ys = y :: tl := by
  unfold mapE at h
  split at h
  · exact absurd h (by simp)
  · rename_i y hfx
    split at h
    · exact absurd h (by simp)
    · rename_i tl hm
      injection h with h2
      exact ⟨y, tl, hfx, hm, h2.symm⟩

/-- A successful `mapE` preserves the length. -/
theorem mapE_ok_length {α β ε : Type} {f : α → Except ε β} {xs : List α}
    {ys : List β} (h : mapE f xs = .ok ys) : ys.length = xs.length := by
  induction xs generalizing ys with
  | nil =>
    simp only [mapE, Except.ok.injEq] at h
    subst h
    rfl
  | cons x xs ih =>
    obtain ⟨y, tl, _, hm, rfl⟩ := mapE_cons_ok h
    simp [ih hm]

/-- Each element of a successful `mapE` result comes from the input element
at the same position. -/
theorem mapE_ok_get {α β ε : Type} {f : α → Except ε β} {xs : List α}
    {ys : List β} (h : mapE f xs = .ok ys) {j : Nat} {y : β}
    (hy : ys.get? j = some y) : ∃ x, xs.get? j = some x ∧ f x = .ok y := by
  induction xs generalizing ys j with
  | nil =>
    simp only [mapE, Except.ok.injEq] at h
    subst h
    simp at hy
  | cons x xs ih =>
    obtain ⟨y0, tl, hfx, hm, rfl⟩ := mapE_cons_ok h
    cases j with
    | zero =>
      simp only [List.get?_cons_zero, Option.some.injEq] at hy
      subst hy
      exact ⟨x, rfl, hfx⟩
    | succ j =>
      simp only [List.get?_cons_succ] at hy
      obtain ⟨x2, hx2, hfe⟩ := ih hm hy
      exact ⟨x2, by simpa using hx2, hfe⟩

/-- A successful `mapE` means every input element succeeded. -/
theorem mapE_ok_forall {α β ε : Type} {f : α → Except ε β} {xs : List α}
    {ys : List β} (h : mapE f xs = .ok ys) : ∀ x ∈ xs, ∃ y, f x = .ok y := by
  induction xs generalizing ys with
  | nil => intro x hx; exact absurd hx (List.not_mem_nil x)
  | cons x xs ih =>
    obtain ⟨y0, tl, hfx, hm, rfl⟩ := mapE_cons_ok h
    intro z hz
    rcases List.mem_cons.mp hz with rfl | hz2
    · exact ⟨y0, hfx⟩
    · exact ih hm z hz2

/-- If every input element succeeds, `mapE` succeeds. -/
theorem mapE_ok_of_forall {α β ε : Type} {f : α → Except ε β} {xs : List α}
    (h : ∀ x ∈ xs, ∃ y, f x = .ok y) : ∃ ys, mapE f xs = .ok ys := by
  induction xs with
  | nil => exact ⟨[], rfl⟩
  | cons x xs ih =>
    obtain ⟨y, hy⟩ := h x (List.mem_cons_self x xs)
    obtain ⟨ys, hys⟩ := ih (fun z hz => h z (List.mem_cons_of_mem x hz))
    refine ⟨y :: ys, ?_⟩
    unfold mapE
    rw [hy, hys]

/-- A failing `mapE` pinpoints a failing input element with the same
error. -/
theorem mapE_error_mem {α β ε : Type} {f : α → Except ε β} {xs : List α}
    {e : ε} (h : mapE f xs = .error e) : ∃ x ∈ xs, f x = .error e := by
  induction xs with
  | nil => exact absurd h (by simp [mapE])
  | cons x xs ih =>
    unfold mapE at h
    split at h
    · rename_i e2 hfx
      injection h with h2
      subst h2
      exact ⟨x, List.mem_cons_self x xs, hfx⟩
    · rename_i y hfx
      split at h
      · rename_i e2 hm
        injection h with h2
        subst h2
        obtain ⟨x2, hx2, hfe⟩ := ih hm
        exact ⟨x2, List.mem_cons_of_mem x hx2, hfe⟩
      · exact absurd h (by simp)

/-- Inversion of a successful feature build: the coordinate swap, the
timestamp, and the entity-indexed value read. -/
theorem buildFeature_ok {coord : Rat × Rat} {i : Nat} {t : Int}
    {vl : List Rat} {f : Feature} (h : buildFeature coord i t vl = .ok f) :
    f.coordinates = [coord.2, coord.1] ∧ f.time = t ∧
      vl.get? i = some f.value := by
  unfold buildFeature at h
  split at h
  · exact absurd h (by simp)
  · rename_i v hv
    injection h with h2
    subst h2
    exact ⟨rfl, rfl, hv⟩

/-- A feature build can only fail with an index error, and only when the
value list is too short for the entity index. -/
theorem buildFeature_error {coord : Rat × Rat} {i : Nat} {t : Int}
    {vl : List Rat} {e : RenderError}
    (h : buildFeature coord i t vl = .error e) :
    e = RenderError.indexError ∧ vl.length ≤ i := by
  unfold buildFeature at h
  split at h
  · rename_i hv
    injection h with h2
    subst h2
    exact ⟨rfl, List.get?_eq_none.mp hv⟩
  · exact absurd h (by simp)

/-- A feature build succeeds whenever the entity index is in range. -/
theorem buildFeature_isOk {coord : Rat × Rat} {i : Nat} {t : Int}
    {vl : List Rat} (h : i < vl.length) :
    ∃ f, buildFeature coord i t vl = .ok f := by
  obtain ⟨v, hv⟩ : ∃ v, vl.get? i = some v := by
    cases hvv : vl.get? i with
    | none =>
      have := List.get?_eq_none.mp hvv
      omega
    | some v => exact ⟨v, rfl⟩
  refine ⟨⟨[coord.2, coord.1], v, t⟩, ?_⟩
  unfold buildFeature
  rw [hv]

/-- A successful collection has one feature per zipped pair. -/
theorem buildCollection_ok_length {coord : Rat × Rat} {i : Nat}
    {pairs : List (Int × List Rat)} {col : List Feature}
    (h : buildCollection coord i pairs = .ok col) :
    col.length = pairs.length :=
  mapE_ok_length h

/-- Each feature of a successful collection comes from the zipped pair at
the same position. -/
theorem buildCollection_ok_get {coord : Rat × Rat} {i : Nat}
    {pairs : List (Int × List Rat)} {col : List Feature} {j : Nat}
    {f : Feature} (h : buildCollection coord i pairs = .ok col)
    (hf : col.get? j = some f) :
    ∃ t vl, pairs.get? j = some (t, vl) ∧ buildFeature coord i t vl = .ok f := by
  obtain ⟨p, hp, hfe⟩ := mapE_ok_get h hf
  exact ⟨p.1, p.2, by rwa [Prod.mk.eta], hfe⟩

/-- A successful geojson array has one collection per coordinate entry. -/
theorem buildGeojsons_ok_length {coords : List (Rat × Rat)}
    {pairs : List (Int × List Rat)} {gs : List (List Feature)}
    (h : buildGeojsons coords pairs = .ok gs) : gs.length = coords.length := by
  have h2 := mapE_ok_length h
  rwa [List.enum_length] at h2

/-- Each collection of a successful geojson array is the build for the
coordinate entry at the same position, with that entity index. -/
theorem buildGeojsons_ok_get {coords : List (Rat × Rat)}
    {pairs : List (Int × List Rat)} {gs : List (List Feature)} {i : Nat}
    {c : List Feature} (h : buildGeojsons coords pairs = .ok gs)
    (hc : gs.get? i = some c) :
    ∃ coord, coords.get? i = some coord ∧
      buildCollection coord i pairs = .ok c := by
  obtain ⟨ic, hic, hbc⟩ := mapE_ok_get h hc
  rw [List.get?_enum] at hic
  cases hco : coords.get? i <;> rw [hco] at hic
  · exact absurd hic (by simp)
  · rename_i coord
    simp only [Option.map_some', Option.some.injEq] at hic
    subst hic
    exact ⟨coord, rfl, hbc⟩

/-- The accumulated `values` list grows by one entry per iterated
episode. -/
theorem extractLoop_ok_length {g : GeoPlot} {eps : List (List SVal)}
    {c0 : List (Rat × Rat)} {v0 : List (List Rat)} {c : List (Rat × Rat)}
    {v : List (List Rat)} (h : extractLoop g eps c0 v0 = .ok (c, v)) :
    v.length = v0.length + eps.length := by
  induction eps generalizing c0 v0 with
  | nil =>
    simp only [extractLoop, Except.ok.injEq, Prod.mk.injEq] at h
    rw [← h.2]
    simp
  | cons ep eps ih =>
    unfold extractLoop at h
    split at h
    · exact absurd h (by simp)
    · rename_i c1 v1 hre
      have h2 := ih h
      simp only [List.length_append, List.length_cons, List.length_nil] at h2 ⊢
      omega

/-- The coordinate list a successful loop run retains is the coordinate
read of the very last iterated episode; what the earlier episodes held, or
what the loop started from, does not matter. -/
theorem extractLoop_ok_last {g : GeoPlot} {eps : List (List SVal)}
    {ep : List SVal} {c0 : List (Rat × Rat)} {v0 : List (List Rat)}
    {c : List (Rat × Rat)} {v : List (List Rat)}
    (h : extractLoop g (eps ++ [ep]) c0 v0 = .ok (c, v)) :
    ∃ vl, readEpisode g ep = .ok (c, vl) := by
  induction eps generalizing c0 v0 with
  | nil =>
    simp only [List.nil_append] at h
    unfold extractLoop at h
    split at h
    · exact absurd h (by simp)
    · rename_i c1 v1 hre
      simp only [extractLoop, Except.ok.injEq, Prod.mk.injEq] at h
      refine ⟨v1, ?_⟩
      rw [← h.1]
      exact hre
  | cons e2 eps ih =>
    simp only [List.cons_append] at h
    unfold extractLoop at h
    split at h
    · exact absurd h (by simp)
    · rename_i c1 v1 hre
      exact ih h

/-- The timeline has `num_episodes * num_steps_per_episode` entries. -/
theorem mkTimestamps_length (g : GeoPlot) (s : Int) :
    (mkTimestamps g s).length =
      g.config.num_episodes * g.config.num_steps_per_episode := by
  simp [mkTimestamps]

/-- The timeline entry at index `j` is the start time offset by
`j * step_time` seconds. -/
theorem mkTimestamps_get? {g : GeoPlot} {s : Int} {j : Nat}
    (h : j < g.config.num_episodes * g.config.num_steps_per_episode) :
    (mkTimestamps g s).get? j = some (s + (j : Int) * g.step_time) := by
  unfold mkTimestamps
  rw [List.get?_map, List.get?_range h]
  rfl

/-- The first component of an enumerated entry is a valid index. -/
theorem mem_enum_fst_lt {α : Type} {l : List α} {ic : Nat × α}
    (h : ic ∈ l.enum) : ic.1 < l.length := by
  obtain ⟨n, hn⟩ := List.mem_iff_get?.mp h
  rw [List.get?_enum] at hn
  cases hc : l.get? n <;> rw [hc] at hn
  · exact absurd hn (by simp)
  · simp only [Option.map_some', Option.some.injEq] at hn
    subst hn
    exact (List.get?_eq_some.mp hc).1

/-- If some zipped episode value list is strictly shorter than the
coordinate list, the geojson assembly fails with an index error: the
entity at the last coordinate index reads past the end of that value
list. -/
theorem buildGeojsons_short_error {coords : List (Rat × Rat)}
    {pairs : List (Int × List Rat)} {tt : Int} {vl : List Rat}
    (hmem : (tt, vl) ∈ pairs) (hshort : vl.length < coords.length) :
    buildGeojsons coords pairs = .error RenderError.indexError := by
  cases hres : buildGeojsons coords pairs with
  | ok gs =>
    exfalso
    have hforall := mapE_ok_forall hres
    obtain ⟨coord, hcoord⟩ : ∃ coord,
        coords.get? (coords.length - 1) = some coord := by
      cases hc : coords.get? (coords.length - 1) with
      | none =>
        have := List.get?_eq_none.mp hc
        omega
      | some coord => exact ⟨coord, rfl⟩
    have henum : (coords.length - 1, coord) ∈ coords.enum := by
      apply List.get?_mem
      rw [List.get?_enum, hcoord]
      rfl
    obtain ⟨col, hcol⟩ := hforall _ henum
    obtain ⟨f, hf⟩ := mapE_ok_forall hcol (tt, vl) hmem
    have hsome := (buildFeature_ok hf).2.2
    have hlt : coords.length - 1 < vl.length := (List.get?_eq_some.mp hsome).1
    omega
  | error e =>
    obtain ⟨ic, _, hce⟩ := mapE_error_mem hres
    obtain ⟨pp, _, hfe⟩ := mapE_error_mem hce
    rw [(buildFeature_error hfe).1]

/-- If every zipped episode value list is at least as long as the
coordinate list, the geojson assembly succeeds: a longer value list never
causes a failure, its extra entries are simply never read. -/
theorem buildGeojsons_ok_of_long {coords : List (Rat × Rat)}
    {pairs : List (Int × List Rat)}
    (h : ∀ p ∈ pairs, coords.length ≤ (Prod.snd p).length) :
    ∃ gs, buildGeojsons coords pairs = .ok gs := by
  apply mapE_ok_of_forall
  intro ic hic
  apply mapE_ok_of_forall
  intro pp hpp
  apply buildFeature_isOk
  have h1 := h pp hpp
  have h2 := mem_enum_fst_lt hic
  omega

/-! Characterization of `render` by execution path. -/

/-- A failing extraction loop aborts `render` before any write. -/
theorem render_extract_error {g : GeoPlot} {s : Int}
    {t : List (List SVal)} {e : RenderError}
    (h : extractLoop g (t.take (t.length - 1)) [] [] = .error e) :
    render g s t = ([], some e) := by
  simp only [render, h]

/-- A failing geojson assembly aborts `render` before any write. -/
theorem render_build_error {g : GeoPlot} {s : Int} {t : List (List SVal)}
    {coords : List (Rat × Rat)} {values : List (List Rat)} {e : RenderError}
    (hx : extractLoop g (t.take (t.length - 1)) [] [] = .ok (coords, values))
    (hb : buildGeojsons coords ((mkTimestamps g s).zip values) = .error e) :
    render g s t = ([], some e) := by
  simp only [render, hx, hb]

/-- With an empty timeline, `render` writes the geojson file and then
fails reading `timestamps[0]`, leaving only that one file. -/
theorem render_empty_timeline {g : GeoPlot} {s : Int}
    {t : List (List SVal)} {coords : List (Rat × Rat)}
    {values : List (List Rat)} {gs : List (List Feature)}
    (hx : extractLoop g (t.take (t.length - 1)) [] [] = .ok (coords, values))
    (hb : buildGeojsons coords ((mkTimestamps g s).zip values) = .ok gs)
    (hts : mkTimestamps g s = []) :
    render g s t = ([Write.geojsonFile (g.config.name ++ ".geojson") gs],
      some RenderError.emptyTimeline) := by
  simp only [render, hx, hb]
  rw [hts]
  rfl

/-- On the fully successful path, `render` writes the geojson file and
then the substituted HTML file. -/
theorem render_ok_writes {g : GeoPlot} {s : Int} {t : List (List SVal)}
    {coords : List (Rat × Rat)} {values : List (List Rat)}
    {gs : List (List Feature)} {t0 t1 : Int}
    (hx : extractLoop g (t.take (t.length - 1)) [] [] = .ok (coords, values))
    (hb : buildGeojsons coords ((mkTimestamps g s).zip values) = .ok gs)
    (h0 : (mkTimestamps g s).head? = some t0)
    (h1 : (mkTimestamps g s).getLast? = some t1) :
    render g s t = ([Write.geojsonFile (g.config.name ++ ".geojson") gs,
      Write.htmlFile (g.config.name ++ ".html")
        ⟨g.cesium_token, t0, t1, gs, g.visualization_type⟩], none) := by
  simp only [render, hx, hb, h0, h1]

/-- Every `render` run takes one of three shapes: an error with no writes,
the geojson write followed by the empty-timeline error, or both writes and
no error. -/
theorem render_shape (g : GeoPlot) (s : Int) (t : List (List SVal)) :
    (∃ e, render g s t = ([], some e)) ∨
    (∃ gs, render g s t =
        ([Write.geojsonFile (g.config.name ++ ".geojson") gs],
          some RenderError.emptyTimeline)) ∨
    (∃ gs doc, render g s t =
        ([Write.geojsonFile (g.config.name ++ ".geojson") gs,
          Write.htmlFile (g.config.name ++ ".html") doc], none)) := by
  cases hx : extractLoop g (t.take (t.length - 1)) [] [] with
  | error e => exact Or.inl ⟨e, render_extract_error hx⟩
  | ok cv =>
    obtain ⟨coords, values⟩ := cv
    cases hb : buildGeojsons coords ((mkTimestamps g s).zip values) with
    | error e => exact Or.inl ⟨e, render_build_error hx hb⟩
    | ok gs =>
      cases hts : mkTimestamps g s with
      | nil => exact Or.inr (Or.inl ⟨gs, render_empty_timeline hx hb hts⟩)
      | cons t0 rest =>
        have h0 : (mkTimestamps g s).head? = some t0 := by rw [hts]; rfl
        obtain ⟨t1, h1⟩ : ∃ t1, (mkTimestamps g s).getLast? = some t1 := by
          cases hgl : (mkTimestamps g s).getLast? with
          | none =>
            rw [List.getLast?_eq_none_iff] at hgl
            rw [hts] at hgl
            exact absurd hgl (by simp)
          | some t1 => exact ⟨t1, rfl⟩
        exact Or.inr (Or.inr ⟨gs,
          ⟨g.cesium_token, t0, t1, gs, g.visualization_type⟩,
          render_ok_writes hx hb h0 h1⟩)

/-- A geojson write among the performed writes pins down its path and
content: the content is the successful geojson assembly over the
extracted coordinates and the timeline zip. -/
theorem render_geojson_mem {g : GeoPlot} {s : Int} {t : List (List SVal)}
    {p : String} {gs : List (List Feature)}
    (h : Write.geojsonFile p gs ∈ (render g s t).1) :
    p = g.config.name ++ ".geojson" ∧
    ∃ coords values,
      extractLoop g (t.take (t.length - 1)) [] [] = .ok (coords, values) ∧
      buildGeojsons coords ((mkTimestamps g s).zip values) = .ok gs := by
  cases hx : extractLoop g (t.take (t.length - 1)) [] [] with
  | error e =>
    rw [render_extract_error hx] at h
    exact absurd h (by simp)
  | ok cv =>
    obtain ⟨coords, values⟩ := cv
    cases hb : buildGeojsons coords ((mkTimestamps g s).zip values) with
    | error e =>
      rw [render_build_error hx hb] at h
      exact absurd h (by simp)
    | ok gs2 =>
      cases hts : mkTimestamps g s with
      | nil =>
        rw [render_empty_timeline hx hb hts] at h
        simp only [List.mem_singleton, Write.geojsonFile.injEq] at h
        obtain ⟨hp, hgs⟩ := h
        subst hgs
        exact ⟨hp, coords, values, rfl, by rw [← hts]; exact hb⟩
      | cons t0 rest =>
        have h0 : (mkTimestamps g s).head? = some t0 := by rw [hts]; rfl
        obtain ⟨t1, h1⟩ : ∃ t1, (mkTimestamps g s).getLast? = some t1 := by
          cases hgl : (mkTimestamps g s).getLast? with
          | none =>
            rw [List.getLast?_eq_none_iff] at hgl
            rw [hts] at hgl
            exact absurd hgl (by simp)
          | some t1 => exact ⟨t1, rfl⟩
        rw [render_ok_writes hx hb h0 h1] at h
        simp only [List.mem_cons, List.mem_singleton] at h
        rcases h with h | h
        · rw [Write.geojsonFile.injEq] at h
          obtain ⟨hp, hgs⟩ := h
          subst hgs
          exact ⟨hp, coords, values, rfl, by rw [← hts]; exact hb⟩
        · rcases h with h | h
          · exact absurd h (by simp)
          · exact absurd h (List.not_mem_nil _)

/-- The timestamp of the feature at position `j` of any collection of a
successful geojson assembly over the timeline zip is the start time offset
by `j * step_time`. -/
theorem geojsons_time {g : GeoPlot} {s : Int} {coords : List (Rat × Rat)}
    {values : List (List Rat)} {gs : List (List Feature)} {i j : Nat}
    {c : List Feature} {f : Feature}
    (hb : buildGeojsons coords ((mkTimestamps g s).zip values) = .ok gs)
    (hc : gs.get? i = some c) (hf : c.get? j = some f) :
    f.time = s + (j : Int) * g.step_time := by
  obtain ⟨coord, _, hbc⟩ := buildGeojsons_ok_get hb hc
  obtain ⟨tt, vl, hp, hbf⟩ := buildCollection_ok_get hbc hf
  have hz := (List.get?_zip_eq_some _ _ _ _).mp hp
  have ht := hz.1
  have hjlt : j < g.config.num_episodes * g.config.num_steps_per_episode := by
    have hlt := (List.get?_eq_some.mp ht).1
    rwa [mkTimestamps_length] at hlt
  rw [mkTimestamps_get? hjlt] at ht
  injection ht with ht2
  rw [(buildFeature_ok hbf).2.1]
  exact (show s + (j : Int) * g.step_time = tt from ht2).symm

/-- The resolver step on a mapping node: look the first segment up, then
continue with the rest of the path. -/
theorem get_by_path_map_cons (kvs : List (String × SVal)) (seg : String)
    (rest : List String) :
    get_by_path (SVal.map kvs) (seg :: rest) =
      match lookupKey kvs seg with
      | some v => get_by_path v rest
      | none => .error .pathNotFound := rfl

/-- Resolution distributes over path concatenation: the walk is one key
lookup per segment, left to right, threading the intermediate value. -/
theorem get_by_path_append (st : SVal) (xs ys : List String) :
    get_by_path st (xs ++ ys) =
      Except.bind (get_by_path st xs) (fun v => get_by_path v ys) := by
  induction xs generalizing st with
  | nil => cases st <;> rfl
  | cons x xs ih =>
    cases st with
    | leaf r => rfl
    | arr l => rfl
    | map kvs =>
      simp only [List.cons_append, get_by_path_map_cons]
      cases hk : lookupKey kvs x with
      | none => rfl
      | some v => exact ih v

/-! Concrete fixtures used by the counterexamples and witnesses. -/

/-- An episode final state: two entities at coordinates `[[1,2],[3,4]]`
(under key `c`) with feature values `[10, 20]` (under key `f`). -/
def st0 : SVal :=
  .map [("c", .arr [.arr [.leaf 1, .leaf 2], .arr [.leaf 3, .leaf 4]]),
        ("f", .arr [.leaf 10, .leaf 20])]

/-- Like `st0`, with feature values `[30, 40]`. -/
def st1 : SVal :=
  .map [("c", .arr [.arr [.leaf 1, .leaf 2], .arr [.leaf 3, .leaf 4]]),
        ("f", .arr [.leaf 30, .leaf 40])]

/-- One entity at `[[1,2]]` with one feature value `[10]`. -/
def stA : SVal :=
  .map [("c", .arr [.arr [.leaf 1, .leaf 2]]), ("f", .arr [.leaf 10])]

/-- One entity at `[[5,6]]` with one feature value `[11]`. -/
def stB : SVal :=
  .map [("c", .arr [.arr [.leaf 5, .leaf 6]]), ("f", .arr [.leaf 11])]

/-- One entity at `[[1,2]]` but two feature values `[10, 20]`: the value
list is longer than the coordinate list. -/
def st8 : SVal :=
  .map [("c", .arr [.arr [.leaf 1, .leaf 2]]), ("f", .arr [.leaf 10, .leaf 20])]

/-- Two entities at `[[1,2],[3,4]]` but a single feature value `[10]`: the
value list is shorter than the coordinate list. -/
def st8a : SVal :=
  .map [("c", .arr [.arr [.leaf 1, .leaf 2], .arr [.leaf 3, .leaf 4]]),
        ("f", .arr [.leaf 10])]

/-- A `GeoPlot` with `num_episodes = 2`, `num_steps_per_episode = 1`,
`step_time = 3600`, coordinate path `c`, feature path `f`. -/
def gp2 : GeoPlot := ⟨⟨"s", 2, 1⟩, "tok", 3600, "c", "f", "color"⟩

/-- Like `gp2` but with `num_episodes = 0`: an empty timeline. -/
def gp9 : GeoPlot := ⟨⟨"s", 0, 1⟩, "tok", 3600, "c", "f", "color"⟩

/-- A trajectory with exactly 1 episode. -/
def traj1 : List (List SVal) := [[st0]]

/-- A trajectory with exactly 2 episodes and per-episode feature values
`[[10,20],[30,40]]`. -/
def traj2 : List (List SVal) := [[st0], [st1]]

/-- The 2-episode trajectory extended with one trailing episode. -/
def traj3 : List (List SVal) := [[st0], [st1], [st1]]

/-- The geojson array `render` produces for `traj3` under `gp2`. -/
def gs3 : List (List Feature) :=
  [[⟨[2, 1], 10, 0⟩, ⟨[2, 1], 30, 3600⟩],
   [⟨[4, 3], 20, 0⟩, ⟨[4, 3], 40, 3600⟩]]

/-- The state `{a: {b: {c: 42}}}` of the resolver examples. -/
def exState : SVal := .map [("a", .map [("b", .map [("c", .leaf 42)])])]

/-- The content of the geojson write `render` performed first, if any. -/
def writtenGeojson (r : List Write × Option RenderError) :
    Option (List (List Feature)) :=
  match r.1 with
  | Write.geojsonFile _ gs :: _ => some gs
  | _ => none

/-- The per-collection value sequences of the written geojson array. -/
def geojsonValues (r : List Write × Option RenderError) :
    Option (List (List Rat)) :=
  (writtenGeojson r).map (fun gs => gs.map (fun c => c.map Feature.value))

/-! Claim theorems. -/

/-- C1, counterexample: on a trajectory with exactly 1 episode, `render`
does not fail at all and does write output (an empty geojson array and the
HTML file), so the claimed `EmptyTrajectory` failure with no output does
not occur. -/
theorem C1_counterexample :
    (render gp2 0 traj1).2 = none ∧ (render gp2 0 traj1).1 ≠ [] := by
  decide

/-- C1, amended: for every trajectory with fewer than 2 episodes the
extraction loop runs zero iterations, so `render` writes a geojson file
containing an empty array as its first write and — whenever the configured
timeline is nonempty — completes without any failure. -/
theorem C1_theorem (g : GeoPlot) (s : Int) (t : List (List SVal))
    (hlen : t.length < 2) :
    (render g s t).1.head? =
      some (Write.geojsonFile (g.config.name ++ ".geojson") []) ∧
    (0 < g.config.num_episodes * g.config.num_steps_per_episode →
      (render g s t).2 = none) := by
  have htake : t.take (t.length - 1) = [] := by
    have h0 : t.length - 1 = 0 := by omega
    rw [h0, List.take_zero]
  have hx : extractLoop g (t.take (t.length - 1)) [] [] = .ok ([], []) := by
    rw [htake]
    rfl
  have hb : buildGeojsons [] ((mkTimestamps g s).zip []) = .ok [] := rfl
  cases hts : mkTimestamps g s with
  | nil =>
    rw [render_empty_timeline hx hb hts]
    refine ⟨rfl, fun hpos => ?_⟩
    have hl := mkTimestamps_length g s
    rw [hts] at hl
    simp only [List.length_nil] at hl
    omega
  | cons t0 rest =>
    have h0 : (mkTimestamps g s).head? = some t0 := by rw [hts]; rfl
    obtain ⟨t1, h1⟩ : ∃ t1, (mkTimestamps g s).getLast? = some t1 := by
      cases hgl : (mkTimestamps g s).getLast? with
      | none =>
        rw [List.getLast?_eq_none_iff] at hgl
        rw [hts] at hgl
        exact absurd hgl (by simp)
      | some t1 => exact ⟨t1, rfl⟩
    rw [render_ok_writes hx hb h0 h1]
    exact ⟨rfl, fun hpos => rfl⟩

/-- C1, witness: the amended claim at the concrete 1-episode trajectory
with a 2-entry timeline. -/
theorem C1_witness :
    (render gp2 0 traj1).1.head? =
      some (Write.geojsonFile (gp2.config.name ++ ".geojson") []) ∧
    (render gp2 0 traj1).2 = none := by
  have h := C1_theorem gp2 0 traj1 (by decide)
  exact ⟨h.1, h.2 (by decide)⟩

/-- C2, counterexample: on the claimed input itself — the 2-episode
trajectory with entity coordinates `[[1,2],[3,4]]` and per-episode feature
values `[[10,20],[30,40]]` under `num_episodes = 2`,
`num_steps_per_episode = 1`, `step_time = 3600` — the loop reads only
episode 0, so the collection of entity 0 carries the single value `[10]`,
not the claimed `[10, 30]`. -/
theorem C2_counterexample :
    geojsonValues (render gp2 0 traj2) = some [[10], [20]] ∧
    some [[(10 : Rat)], [20]] ≠ some [[(10 : Rat), 30], [20, 40]] := by
  decide

/-- C2, amended: the same scenario with one extra trailing episode
appended (the loop always skips the last episode of the trajectory):
`render` succeeds, produces exactly 2 feature collections, and the
collection of entity 0 holds the values `[10, 30]` at strictly increasing
timestamps spaced 3600 seconds apart, every feature of it bearing
coordinates `[2, 1]`. -/
theorem C2_theorem :
    render gp2 0 traj3 =
      ([Write.geojsonFile "s.geojson" gs3,
        Write.htmlFile "s.html" ⟨"tok", 0, 3600, gs3, "color"⟩], none) ∧
    gs3.length = 2 ∧
    gs3.get? 0 = some [⟨[2, 1], 10, 0⟩, ⟨[2, 1], 30, 3600⟩] := by
  decide

/-- C3, counterexample: a trajectory with `N = 2` episodes and `K = 2`
entities under a matching configuration yields 2 collections with 1
feature each, not the claimed `N = 2` features per collection. -/
theorem C3_counterexample :
    (writtenGeojson (render gp2 0 traj2)).map (fun gs => gs.map List.length) =
      some [1, 1] := by
  decide

/-- C3, amended: with a retained coordinate read of `K` entities, the
output has exactly `K` feature collections, but each holds
`min(num_episodes * num_steps_per_episode, N - 1)` features for an
`N`-episode trajectory — one per episode the loop actually reads — rather
than `N`. -/
theorem C3_theorem (g : GeoPlot) (s : Int) (t : List (List SVal))
    (p : String) (gs : List (List Feature)) (coords : List (Rat × Rat))
    (values : List (List Rat))
    (hx : extractLoop g (t.take (t.length - 1)) [] [] = .ok (coords, values))
    (hmem : Write.geojsonFile p gs ∈ (render g s t).1) :
    gs.length = coords.length ∧
    ∀ c ∈ gs, c.length =
      min (g.config.num_episodes * g.config.num_steps_per_episode)
        (t.length - 1) := by
  obtain ⟨-, coords2, values2, hx2, hb⟩ := render_geojson_mem hmem
  rw [hx] at hx2
  injection hx2 with hcv
  injection hcv with h1 h2
  subst h1
  subst h2
  have hvlen : values.length = t.length - 1 := by
    have hv := extractLoop_ok_length hx
    rw [List.length_take, inf_eq_min] at hv
    simp only [List.length_nil] at hv
    omega
  refine ⟨buildGeojsons_ok_length hb, fun c hc => ?_⟩
  obtain ⟨i, hi⟩ := List.mem_iff_get?.mp hc
  obtain ⟨coord, -, hbc⟩ := buildGeojsons_ok_get hb hi
  rw [buildCollection_ok_length hbc, List.length_zip, mkTimestamps_length,
    hvlen, inf_eq_min]

/-- C3, witness: the amended counts at the concrete 3-episode
trajectory. -/
theorem C3_witness :
    gs3.length = 2 ∧
    ([(⟨[2, 1], 10, 0⟩ : Feature), ⟨[2, 1], 30, 3600⟩]).length =
      min (gp2.config.num_episodes * gp2.config.num_steps_per_episode)
        (traj3.length - 1) := by
  have h := C3_theorem gp2 0 traj3 (gp2.config.name ++ ".geojson") gs3
    [(1, 2), (3, 4)] [[10, 20], [30, 40]] (by rfl) (by decide)
  exact ⟨h.1, h.2 [⟨[2, 1], 10, 0⟩, ⟨[2, 1], 30, 3600⟩] (by decide)⟩

/-- C4, confirmed: every feature `render` emits for entity `i` carries the
swap of the retained coordinate pair of entity `i`: a resolved coordinate
`[lat, lon]` is emitted as `geometry.coordinates = [lon, lat]`. -/
theorem C4_theorem (g : GeoPlot) (s : Int) (t : List (List SVal))
    (p : String) (gs : List (List Feature)) (coords : List (Rat × Rat))
    (values : List (List Rat)) (i : Nat) (c : List Feature) (f : Feature)
    (la lo : Rat)
    (hx : extractLoop g (t.take (t.length - 1)) [] [] = .ok (coords, values))
    (hmem : Write.geojsonFile p gs ∈ (render g s t).1)
    (hc : gs.get? i = some c) (hf : f ∈ c)
    (hco : coords.get? i = some (la, lo)) :
    f.coordinates = [lo, la] := by
  obtain ⟨-, coords2, values2, hx2, hb⟩ := render_geojson_mem hmem
  rw [hx] at hx2
  injection hx2 with hcv
  injection hcv with h1 h2
  subst h1
  subst h2
  obtain ⟨coord, hcoord, hbc⟩ := buildGeojsons_ok_get hb hc
  obtain ⟨j, hj⟩ := List.mem_iff_get?.mp hf
  obtain ⟨tt, vl, hp, hbf⟩ := buildCollection_ok_get hbc hj
  rw [hco] at hcoord
  injection hcoord with h3
  rw [(buildFeature_ok hbf).1, ← h3]

/-- C4, witness: the swap at the concrete 3-episode trajectory: entity 0
resolved at `(1, 2)` is emitted with coordinates `[2, 1]`. -/
theorem C4_witness : (⟨[2, 1], 10, 0⟩ : Feature).coordinates = [2, 1] :=
  C4_theorem gp2 0 traj3 (gp2.config.name ++ ".geojson") gs3
    [(1, 2), (3, 4)] [[10, 20], [30, 40]] 0
    [⟨[2, 1], 10, 0⟩, ⟨[2, 1], 30, 3600⟩] ⟨[2, 1], 10, 0⟩ 1 2
    (by rfl) (by decide) (by decide) (by decide) (by decide)

/-- C5, counterexample: with 2 episodes holding different coordinate data
(episode 0 at `[[1,2]]`, episode 1 at `[[5,6]]`), the emitted features
carry `[2, 1]` — the swapped episode-0 coordinates — not the coordinates
of the last episode. -/
theorem C5_counterexample :
    writtenGeojson (render gp2 0 [[stA], [stB]]) =
      some [[⟨[2, 1], 10, 0⟩]] := by
  decide

/-- C5, amended: for every trajectory with at least 2 episodes, the
retained coordinate set is the one resolved on the final state of the
second-to-last episode (index `length - 2`, the last index the loop
`range(0, len - 1)` visits); earlier reads are overwritten and the last
episode is never read. -/
theorem C5_theorem (g : GeoPlot) (t : List (List SVal)) (ep : List SVal)
    (coords : List (Rat × Rat)) (values : List (List Rat))
    (hlen : 2 ≤ t.length)
    (hep : t.get? (t.length - 2) = some ep)
    (hx : extractLoop g (t.take (t.length - 1)) [] [] = .ok (coords, values)) :
    Except.map Prod.fst (readEpisode g ep) = .ok coords := by
  have hsplit : t.take (t.length - 1) = t.take (t.length - 2) ++ [ep] := by
    have h1 : t.length - 1 = (t.length - 2) + 1 := by omega
    have h2 : t[t.length - 2]? = some ep := by
      rw [← List.get?_eq_getElem?]
      exact hep
    rw [h1, List.take_succ, h2]
    rfl
  rw [hsplit] at hx
  obtain ⟨vl, hre⟩ := extractLoop_ok_last hx
  rw [hre]
  rfl

/-- C5, witness: at the concrete 3-episode trajectory the retained
coordinates are those read from episode 1, the second-to-last. -/
theorem C5_witness :
    Except.map Prod.fst (readEpisode gp2 [st1]) = .ok [(1, 2), (3, 4)] :=
  C5_theorem gp2 traj3 [st1] [(1, 2), (3, 4)] [[10, 20], [30, 40]]
    (by decide) (by rfl) (by rfl)

/-- C6, confirmed: with a positive step duration, consecutive features of
every emitted collection are exactly `step_time` seconds apart — so the
timestamps are strictly increasing within a collection — and the feature
at any index `j` carries the same timestamp in every collection. -/
theorem C6_theorem (g : GeoPlot) (s : Int) (t : List (List SVal))
    (p : String) (gs : List (List Feature))
    (hstep : 0 < g.step_time)
    (hmem : Write.geojsonFile p gs ∈ (render g s t).1) :
    (∀ c ∈ gs, ∀ (j : Nat) (f fn : Feature), c.get? j = some f →
      c.get? (j + 1) = some fn →
      fn.time = f.time + g.step_time ∧ f.time < fn.time) ∧
    (∀ (c1 c2 : List Feature) (j : Nat) (f1 f2 : Feature), c1 ∈ gs →
      c2 ∈ gs → c1.get? j = some f1 → c2.get? j = some f2 →
      f1.time = f2.time) := by
  obtain ⟨-, coords, values, hx, hb⟩ := render_geojson_mem hmem
  constructor
  · intro c hc j f fn hf hfn
    obtain ⟨i, hi⟩ := List.mem_iff_get?.mp hc
    have h1 := geojsons_time hb hi hf
    have h2 := geojsons_time hb hi hfn
    have hcast : ((j + 1 : Nat) : Int) * g.step_time =
        (j : Int) * g.step_time + g.step_time := by
      push_cast
      ring
    rw [h1, h2, hcast]
    constructor
    · ring
    · linarith
  · intro c1 c2 j f1 f2 hc1 hc2 hf1 hf2
    obtain ⟨i1, hi1⟩ := List.mem_iff_get?.mp hc1
    obtain ⟨i2, hi2⟩ := List.mem_iff_get?.mp hc2
    rw [geojsons_time hb hi1 hf1, geojsons_time hb hi2 hf2]

/-- C6, witness: at the concrete 3-episode trajectory, the two features of
the entity-0 collection are 3600 seconds apart in increasing order, and
the index-1 features of both collections share the timestamp 3600. -/
theorem C6_witness :
    ((⟨[2, 1], 30, 3600⟩ : Feature).time =
        (⟨[2, 1], 10, 0⟩ : Feature).time + gp2.step_time ∧
      (⟨[2, 1], 10, 0⟩ : Feature).time < (⟨[2, 1], 30, 3600⟩ : Feature).time) ∧
    (⟨[2, 1], 30, 3600⟩ : Feature).time = (⟨[4, 3], 40, 3600⟩ : Feature).time := by
  have h := C6_theorem gp2 0 traj3 (gp2.config.name ++ ".geojson") gs3
    (by decide) (by decide)
  exact ⟨h.1 [⟨[2, 1], 10, 0⟩, ⟨[2, 1], 30, 3600⟩] (by decide) 0
      ⟨[2, 1], 10, 0⟩ ⟨[2, 1], 30, 3600⟩ (by decide) (by decide),
    h.2 [⟨[2, 1], 10, 0⟩, ⟨[2, 1], 30, 3600⟩]
      [⟨[4, 3], 20, 0⟩, ⟨[4, 3], 40, 3600⟩] 1 ⟨[2, 1], 30, 3600⟩
      ⟨[4, 3], 40, 3600⟩ (by decide) (by decide) (by decide) (by decide)⟩

/-- C7, confirmed (with `get_by_path` modelled from the spec): the path is
split on `/` into one segment per name; resolution performs one key lookup
per segment, left to right — it distributes over path concatenation; on
`{a: {b: {c: 42}}}` the path `a/b/c` resolves to `42` while `a/x` fails
with `PathNotFound`; and a missing segment or a non-mapping intermediate
value always fails with `PathNotFound`. -/
theorem C7_theorem :
    read_var exState "a/b/c" = .ok (.leaf 42) ∧
    read_var exState "a/x" = .error .pathNotFound ∧
    splitSlash "a/b/c" = ["a", "b", "c"] ∧
    (∀ (st : SVal) (xs ys : List String),
      get_by_path st (xs ++ ys) =
        Except.bind (get_by_path st xs) (fun v => get_by_path v ys)) ∧
    (∀ (x : Rat) (seg : String) (rest : List String),
      get_by_path (SVal.leaf x) (seg :: rest) = .error .pathNotFound) ∧
    (∀ (l : List SVal) (seg : String) (rest : List String),
      get_by_path (SVal.arr l) (seg :: rest) = .error .pathNotFound) ∧
    (∀ (kvs : List (String × SVal)) (seg : String) (rest : List String),
      lookupKey kvs seg = none →
        get_by_path (SVal.map kvs) (seg :: rest) = .error .pathNotFound) := by
  refine ⟨by rfl, by rfl, by decide, get_by_path_append, ?_, ?_, ?_⟩
  · intro x seg rest
    rfl
  · intro l seg rest
    rfl
  · intro kvs seg rest h
    rw [get_by_path_map_cons, h]

/-- C7, witness: the missing-segment case of the resolver contract at a
concrete mapping without the requested key. -/
theorem C7_witness :
    get_by_path (SVal.map [("k", SVal.leaf 1)]) ["z"] =
      .error RenderError.pathNotFound :=
  C7_theorem.2.2.2.2.2.2 [("k", SVal.leaf 1)] "z" [] (by rfl)

/-- C8, counterexample: an episode whose resolved value list (length 2)
disagrees with its resolved coordinate list (length 1) does not make
`render` fail: the extra value is silently ignored, so no
`ShapeMismatch`-style failure occurs for longer value lists. -/
theorem C8_counterexample :
    readEpisode gp2 [st8] = .ok ([(1, 2)], [10, 20]) ∧
    (render gp2 0 [[st8], [st8]]).2 = none := by
  refine ⟨by rfl, by decide⟩

/-- C8, amended: a shape disagreement makes `render` fail — with an index
error raised during feature assembly, before any write — exactly when some
episode value list consulted by the timeline zip is strictly shorter than
the retained coordinate list; value lists longer than the coordinate list
never cause a failure. -/
theorem C8_theorem (g : GeoPlot) (s : Int) (t : List (List SVal))
    (coords : List (Rat × Rat)) (values : List (List Rat))
    (hx : extractLoop g (t.take (t.length - 1)) [] [] = .ok (coords, values)) :
    ((∃ pr ∈ (mkTimestamps g s).zip values,
        (Prod.snd pr).length < coords.length) →
      render g s t = ([], some RenderError.indexError)) ∧
    ((∀ pr ∈ (mkTimestamps g s).zip values,
        coords.length ≤ (Prod.snd pr).length) →
      (render g s t).2 ≠ some RenderError.indexError) := by
  constructor
  · rintro ⟨⟨tt, vl⟩, hmem, hshort⟩
    exact render_build_error hx (buildGeojsons_short_error hmem hshort)
  · intro hlong
    obtain ⟨gs, hb⟩ := buildGeojsons_ok_of_long hlong
    cases hts : mkTimestamps g s with
    | nil =>
      rw [render_empty_timeline hx hb hts]
      simp
    | cons t0 rest =>
      have h0 : (mkTimestamps g s).head? = some t0 := by rw [hts]; rfl
      obtain ⟨t1, h1⟩ : ∃ t1, (mkTimestamps g s).getLast? = some t1 := by
        cases hgl : (mkTimestamps g s).getLast? with
        | none =>
          rw [List.getLast?_eq_none_iff] at hgl
          rw [hts] at hgl
          exact absurd hgl (by simp)
        | some t1 => exact ⟨t1, rfl⟩
      rw [render_ok_writes hx hb h0 h1]
      simp

/-- C8, witness: a value list shorter than the coordinate list makes
`render` fail with the index error and no writes, while the
longer-value-list input of the counterexample never raises it. -/
theorem C8_witness :
    render gp2 0 [[st8a], [st8a]] = ([], some RenderError.indexError) ∧
    (render gp2 0 [[st8], [st8]]).2 ≠ some RenderError.indexError := by
  constructor
  · exact (C8_theorem gp2 0 [[st8a], [st8a]] [(1, 2), (3, 4)] [[10]]
      (by rfl)).1 ⟨(0, [10]), by decide, by decide⟩
  · exact (C8_theorem gp2 0 [[st8], [st8]] [(1, 2)] [[10, 20]]
      (by rfl)).2 (by decide)

/-- C9, counterexample: with `num_episodes = 0` the timeline is empty;
`render` writes the geojson file first and only then fails reading the
first timestamp for the HTML substitution, leaving a file behind on a
failing run. -/
theorem C9_counterexample :
    render gp9 0 traj2 =
      ([Write.geojsonFile "s.geojson" [[], []]],
        some RenderError.emptyTimeline) := by
  decide

/-- C9, amended: on failure the HTML file is never written, and every
failure other than the empty-timeline read — which happens after the
geojson dump — leaves no writes at all; so the geojson file, and only it,
can exist after a failing run. -/
theorem C9_theorem (g : GeoPlot) (s : Int) (t : List (List SVal))
    (e : RenderError) (h : (render g s t).2 = some e) :
    (∀ (q : String) (d : HtmlDoc), Write.htmlFile q d ∉ (render g s t).1) ∧
    (e ≠ RenderError.emptyTimeline → (render g s t).1 = []) := by
  rcases render_shape g s t with ⟨e2, he⟩ | ⟨gs, he⟩ | ⟨gs, doc, he⟩
  · rw [he]
    exact ⟨fun q d => List.not_mem_nil _, fun _ => rfl⟩
  · rw [he] at h ⊢
    refine ⟨fun q d hmem => ?_, fun hne => ?_⟩
    · simp at hmem
    · simp only at h
      injection h with h2
      exact absurd h2.symm hne
  · rw [he] at h
    exact absurd h (by simp)

/-- C9, witness: at the empty-timeline failing input, the HTML file is not
among the writes. -/
theorem C9_witness :
    Write.htmlFile "s.html" ⟨"tok", 0, 0, [], "color"⟩ ∉
      (render gp9 0 traj2).1 :=
  (C9_theorem gp9 0 traj2 RenderError.emptyTimeline (by decide)).1
    "s.html" ⟨"tok", 0, 0, [], "color"⟩

/-- C10, confirmed: whenever `render` succeeds, all emitted feature
collections have the same number of features, namely the minimum of the
timeline length `num_episodes * num_steps_per_episode` and the number of
accumulated per-episode value lists — the positional zip truncates at the
shorter sequence. -/
theorem C10_theorem (g : GeoPlot) (s : Int) (t : List (List SVal))
    (p : String) (gs : List (List Feature)) (coords : List (Rat × Rat))
    (values : List (List Rat))
    (hok : (render g s t).2 = none)
    (hx : extractLoop g (t.take (t.length - 1)) [] [] = .ok (coords, values))
    (hmem : Write.geojsonFile p gs ∈ (render g s t).1) :
    (∀ c1 ∈ gs, ∀ c2 ∈ gs, c1.length = c2.length) ∧
    ∀ c ∈ gs, c.length =
      min (g.config.num_episodes * g.config.num_steps_per_episode)
        values.length := by
  obtain ⟨-, coords2, values2, hx2, hb⟩ := render_geojson_mem hmem
  rw [hx] at hx2
  injection hx2 with hcv
  injection hcv with h1 h2
  subst h1
  subst h2
  have hcol : ∀ c ∈ gs, c.length =
      min (g.config.num_episodes * g.config.num_steps_per_episode)
        values.length := by
    intro c hc
    obtain ⟨i, hi⟩ := List.mem_iff_get?.mp hc
    obtain ⟨coord, -, hbc⟩ := buildGeojsons_ok_get hb hi
    rw [buildCollection_ok_length hbc, List.length_zip, mkTimestamps_length,
      inf_eq_min]
  exact ⟨fun c1 hc1 c2 hc2 => by rw [hcol c1 hc1, hcol c2 hc2], hcol⟩

/-- C10, witness: the common feature count at the concrete 3-episode
trajectory, where the timeline has 2 entries and 2 value lists were
accumulated. -/
theorem C10_witness :
    ([(⟨[2, 1], 10, 0⟩ : Feature), ⟨[2, 1], 30, 3600⟩]).length =
      min (gp2.config.num_episodes * gp2.config.num_steps_per_episode)
        (List.length [[(10 : Rat), 20], [30, 40]]) := by
  have h := C10_theorem gp2 0 traj3 (gp2.config.name ++ ".geojson") gs3
    [(1, 2), (3, 4)] [[10, 20], [30, 40]] (by decide) (by rfl) (by decide)
  exact h.2 [⟨[2, 1], 10, 0⟩, ⟨[2, 1], 30, 3600⟩] (by decide)

end Geoplot
